import Mathlib

/-!
Shallow embedding of `sdxl_prompt_styler.py` (ComfyUI-Prompt-Preview).

Python strings are modelled as `List Char` (`PyStr`).  JSON template records
are modelled as `JItem` (the three fields the code reads, each `Option` to
model key presence); a whole JSON document fed to the combiners is `JData`
(either a list of records or some non-list value).  File-system access and
JSON parsing in the loader are modelled by passing each file's parse outcome
as `Option (List JItem)` (`none` = unreadable / unparseable).

All definitions are structural recursions so that concrete instances reduce
inside the kernel (`decide` / `rfl`).
-/

/-- Python `str` modelled as a list of characters. -/
abbrev PyStr := List Char

/-- ASCII whitespace as removed by Python `str.strip()`. -/
def isSpaceChar (c : Char) : Bool :=
  c == ' ' || c == '\t' || c == '\n' || c == '\r' || c == Char.ofNat 11 || c == Char.ofNat 12

/-- Python `s.strip()`: drop leading and trailing whitespace. -/
def stripStr (s : PyStr) : PyStr :=
  ((s.dropWhile isSpaceChar).reverse.dropWhile isSpaceChar).reverse

/-- `leadsWith p s` holds when `p` occurs at the very start of `s`. -/
def leadsWith : PyStr → PyStr → Bool
  | [], _ => true
  | _ :: _, [] => false
  | c :: p, d :: s => c == d && leadsWith p s

/-- Python `pat in s` (substring containment). -/
def hasSubstr (pat : PyStr) : PyStr → Bool
  | [] => pat.isEmpty
  | c :: t => leadsWith pat (c :: t) || hasSubstr pat t

/-- Worker for `replaceSub`.  The `Nat` is the number of characters still to
skip after a pattern was just replaced (structural recursion on the string,
so that applications reduce in the kernel). -/
def replaceAux (pat rep : PyStr) : Nat → PyStr → PyStr
  | _, [] => []
  | 0, c :: t =>
    if pat ≠ [] ∧ leadsWith pat (c :: t) = true then
      rep ++ replaceAux pat rep (pat.length - 1) t
    else c :: replaceAux pat rep 0 t
  | n + 1, _ :: t => replaceAux pat rep n t

/-- Python `s.replace(pat, rep)` for a non-empty `pat`: replace the leftmost
non-overlapping occurrences, left to right.  (The source only calls it with
the constant pattern `{prompt}`, which is non-empty.) -/
def replaceSub (pat rep s : PyStr) : PyStr := replaceAux pat rep 0 s

/-- Python `s.split(sep, 1)` packaged as the pair (before, after) of the first
occurrence of `sep`; if `sep` does not occur, the second component is empty.
(The source only calls it after checking `sep in s`.) -/
def splitFirst (sep : PyStr) : PyStr → PyStr × PyStr
  | [] => ([], [])
  | c :: t =>
    if sep ≠ [] ∧ leadsWith sep (c :: t) = true then ([], (c :: t).drop sep.length)
    else (c :: (splitFirst sep t).1, (splitFirst sep t).2)

/-- Python `s.split(",")`: split on every comma; always returns at least one
(possibly empty) part. -/
def splitComma : PyStr → List PyStr
  | [] => [[]]
  | c :: t =>
    if c == ',' then [] :: splitComma t
    else
      match splitComma t with
      | [] => [[c]]
      | a :: r => (c :: a) :: r

/-- Python `sep.join(parts)`. -/
def joinSep (sep : PyStr) : List PyStr → PyStr
  | [] => []
  | [x] => x
  | x :: y :: r => x ++ sep ++ joinSep sep (y :: r)

/-- The placeholder marker `{prompt}`. -/
def marker : PyStr := ("{prompt}").data

/-- The separator `", "` used when concatenating prompt fragments. -/
def commaSep : PyStr := (", ").data

/-- The separator `" . "` splitting a template into global and local parts. -/
def dotSep : PyStr := (" . ").data

/-- The `negative_prompt_to` selector value `"Both"`. -/
def strBoth : PyStr := ("Both").data

/-- The `negative_prompt_to` selector value `"G only"`. -/
def strGOnly : PyStr := ("G only").data

/-- The `negative_prompt_to` selector value `"L only"`. -/
def strLOnly : PyStr := ("L only").data

/-- A JSON template record, restricted to the three keys the code reads.
`none` models an absent key. -/
structure JItem where
  name : Option PyStr
  prompt : Option PyStr
  negative_prompt : Option PyStr
deriving DecidableEq

/-- A JSON document handed to the combiners: a list of records, or some value
that is not a list (`validate_json_data` rejects the latter). -/
inductive JData where
  | arr : List JItem → JData
  | notList : JData

/-- `validate_json_data` from the source: the data must be a list and every
record must contain the keys `name` and `prompt`. -/
def validate_json_data : JData → Bool
  | JData.arr items => items.all fun t => t.name.isSome && t.prompt.isSome
  | JData.notList => false

/-- `find_template_by_name` from the source: first record whose `name` equals
the requested name. -/
def find_template_by_name (json_data : List JItem) (template_name : PyStr) : Option JItem :=
  json_data.find? fun t => decide (t.name = some template_name)

/-- `split_template_advanced` from the source: split on the first `" . "` and
strip both parts; without the separator the whole prompt is the global part
(not stripped) and the local part is empty. -/
def split_template_advanced (template : PyStr) : PyStr × PyStr :=
  if hasSubstr dotSep template then
    (stripStr (splitFirst dotSep template).1, stripStr (splitFirst dotSep template).2)
  else (template, [])

/-- `replace_prompts_in_template` from the source: substitute `{prompt}` in
the template's prompt and merge the two negative texts using Python string
truthiness (`a and b` / `a or b`). -/
def replace_prompts_in_template (template : JItem)
    (positive_prompt negative_prompt : PyStr) : PyStr × PyStr :=
  let positive_result := replaceSub marker positive_prompt (template.prompt.getD [])
  let json_negative_prompt := template.negative_prompt.getD []
  let negative_result :=
    if json_negative_prompt ≠ [] ∧ negative_prompt ≠ [] then
      json_negative_prompt ++ commaSep ++ negative_prompt
    else if json_negative_prompt ≠ [] then json_negative_prompt
    else negative_prompt
  (positive_result, negative_result)

/-- `replace_prompts_in_template_advanced` from the source.  Returns the
6-tuple (text_g_positive, text_l_positive, text_positive, text_g_negative,
text_l_negative, text_negative).  All Python truthiness tests on strings are
modelled as `≠ []`. -/
def replace_prompts_in_template_advanced (template : JItem)
    (positive_prompt_g positive_prompt_l negative_prompt negative_prompt_to : PyStr)
    (copy_to_l : Bool) : PyStr × PyStr × PyStr × PyStr × PyStr × PyStr :=
  let template_prompt_g := (split_template_advanced (template.prompt.getD [])).1
  let template_prompt_l_template := (split_template_advanced (template.prompt.getD [])).2
  let text_g_positive := replaceSub marker positive_prompt_g template_prompt_g
  let text_l_positive :=
    if template_prompt_l_template ≠ [] ∧ positive_prompt_l ≠ [] then
      replaceSub marker positive_prompt_g template_prompt_l_template ++ commaSep
        ++ positive_prompt_l
    else if replaceSub marker positive_prompt_g template_prompt_l_template ≠ [] then
      replaceSub marker positive_prompt_g template_prompt_l_template
    else positive_prompt_l
  let text_l_positive2 :=
    if copy_to_l = true ∧ positive_prompt_g ≠ []
        ∧ hasSubstr marker template_prompt_l_template = false then
      let token_positive_g := (splitComma text_g_positive).map stripStr
      let token_positive_l := (splitComma text_l_positive).map stripStr
      let token_positive_l2 :=
        token_positive_g.foldl
          (fun acc token_g => if token_g ∈ acc then acc.erase token_g else acc)
          token_positive_l
      joinSep commaSep (token_positive_g ++ token_positive_l2)
    else text_l_positive
  let text_positive :=
    if text_l_positive2 ≠ [] then text_g_positive ++ dotSep ++ text_l_positive2
    else text_g_positive
  let json_negative_prompt := template.negative_prompt.getD []
  let text_negative :=
    if json_negative_prompt ≠ [] ∧ negative_prompt ≠ [] then
      json_negative_prompt ++ commaSep ++ negative_prompt
    else if json_negative_prompt ≠ [] then json_negative_prompt
    else negative_prompt
  let text_g_negative :=
    if negative_prompt_to = strBoth ∨ negative_prompt_to = strGOnly then text_negative
    else []
  let text_l_negative :=
    if negative_prompt_to = strBoth ∨ negative_prompt_to = strLOnly then text_negative
    else []
  (text_g_positive, text_l_positive2, text_positive, text_g_negative, text_l_negative,
   text_negative)

/-- `read_sdxl_templates_replace_and_combine` from the source: validate, look
up the template by name, substitute; on any failure pass the caller's prompts
through unchanged. -/
def read_sdxl_templates_replace_and_combine (json_data : JData)
    (template_name positive_prompt negative_prompt : PyStr) : PyStr × PyStr :=
  if validate_json_data json_data then
    match json_data with
    | JData.arr items =>
      match find_template_by_name items template_name with
      | some template => replace_prompts_in_template template positive_prompt negative_prompt
      | none => (positive_prompt, negative_prompt)
    | JData.notList => (positive_prompt, negative_prompt)
  else (positive_prompt, negative_prompt)

/-- `read_sdxl_templates_replace_and_combine_advanced` from the source: the
advanced analogue; on validation failure or an unknown name the fallback is
`(g, l, "<g> . <l>", neg, neg, neg)`. -/
def read_sdxl_templates_replace_and_combine_advanced (json_data : JData)
    (template_name positive_prompt_g positive_prompt_l negative_prompt
      negative_prompt_to : PyStr) (copy_to_l : Bool) :
    PyStr × PyStr × PyStr × PyStr × PyStr × PyStr :=
  if validate_json_data json_data then
    match json_data with
    | JData.arr items =>
      match find_template_by_name items template_name with
      | some template =>
        replace_prompts_in_template_advanced template positive_prompt_g positive_prompt_l
          negative_prompt negative_prompt_to copy_to_l
      | none =>
        (positive_prompt_g, positive_prompt_l,
         positive_prompt_g ++ dotSep ++ positive_prompt_l,
         negative_prompt, negative_prompt, negative_prompt)
    | JData.notList =>
      (positive_prompt_g, positive_prompt_l,
       positive_prompt_g ++ dotSep ++ positive_prompt_l,
       negative_prompt, negative_prompt, negative_prompt)
  else
    (positive_prompt_g, positive_prompt_l,
     positive_prompt_g ++ dotSep ++ positive_prompt_l,
     negative_prompt, negative_prompt, negative_prompt)

/-- `read_json_file` from the source, with parsing modelled by the argument:
accept only a parsed list in which every record has `name`, `prompt` AND
`negative_prompt`; otherwise the file is rejected (`none`). -/
def read_json_file (parsed : Option (List JItem)) : Option (List JItem) :=
  match parsed with
  | none => none
  | some content =>
    if content.all fun item =>
        item.name.isSome && item.prompt.isSome && item.negative_prompt.isSome then
      some content
    else none

/-- Decimal digit character (used for collision suffixes), `48 = '0'`. -/
def digitChar (n : Nat) : Char := Char.ofNat (48 + n)

/-- Fuelled decimal rendering of a natural number (fuel `n + 1` suffices). -/
def natToStrAux : Nat → Nat → PyStr
  | 0, _ => []
  | fuel + 1, n =>
    if n < 10 then [digitChar n]
    else natToStrAux fuel (n / 10) ++ [digitChar (n % 10)]

/-- Python `f"{n}"` for a natural number. -/
def natToStr (n : Nat) : PyStr := natToStrAux (n + 1) n

/-- Parse a decimal digit string back to a number (proof device). -/
def strVal (s : PyStr) : Nat := s.foldl (fun acc c => acc * 10 + (c.toNat - 48)) 0

/-- The candidate name `f"{orig}_{n}"` tried by the collision loop. -/
def cand (orig : PyStr) (n : Nat) : PyStr := orig ++ ('_' :: natToStr n)

/-- The `while style in seen` loop of `load_styles_from_directory`, fuelled:
`style` is the current candidate and `suffix` the next number to try.  The
fuel `seen.length + 1` used by `pickStyle` is provably sufficient. -/
def styleLoop (seen : List PyStr) (orig : PyStr) : Nat → Nat → PyStr → PyStr
  | 0, _, style => style
  | fuel + 1, suffix, style =>
    if style ∈ seen then styleLoop seen orig fuel (suffix + 1) (cand orig suffix)
    else style

/-- Resolve one name against the already-used set, as the source's loop does:
start from the bare name, then try `orig_1`, `orig_2`, …. -/
def pickStyle (seen : List PyStr) (orig : PyStr) : PyStr :=
  styleLoop seen orig (seen.length + 1) 1 orig

/-- One iteration of the item loop in `load_styles_from_directory`: rename the
item with the resolved style and record the style as seen. -/
def processItem (state : List JItem × List PyStr) (item : JItem) :
    List JItem × List PyStr :=
  let style := pickStyle state.2 (item.name.getD [])
  (state.1 ++ [{ item with name := some style }], state.2 ++ [style])

/-- `load_styles_from_directory` from the source: fold the accepted files'
records through the renaming loop (a skipped file leaves the state unchanged;
an accepted empty file contributes no items), then read the name list off the
combined data. -/
def load_styles_from_directory (json_files : List (Option (List JItem))) :
    List JItem × List PyStr :=
  let final := json_files.foldl
    (fun state json_file =>
      match read_json_file json_file with
      | some json_data => json_data.foldl processItem state
      | none => state)
    ([], [])
  (final.1, final.1.filterMap fun item => item.name)

/-- The records of the accepted files, concatenated in listing order. -/
def acceptedRecords (json_files : List (Option (List JItem))) : List JItem :=
  (json_files.filterMap read_json_file).flatten

/-- Unrolled form of the item-level fold of the loader (proof device): assign
each record its resolved name, threading the seen set. -/
def assignAll : List JItem → List PyStr → List JItem
  | [], _ => []
  | it :: rest, seen =>
    let a := pickStyle seen (it.name.getD [])
    { it with name := some a } :: assignAll rest (seen ++ [a])

/-- Comma-split-and-strip tokenization used by the copy-to-local dedup. -/
def tokensOf (s : PyStr) : List PyStr := (splitComma s).map stripStr

/-- The source's dedup loop over the global tokens: for each global token in
order, delete the FIRST matching occurrence from the local list, if any. -/
def removeEach (gs ls : List PyStr) : List PyStr :=
  gs.foldl (fun acc g => if g ∈ acc then acc.erase g else acc) ls

/-- Modelled from the spec: the claim's merge rule "both non-empty →
comma-join; else whichever is non-empty; else empty", applied to its two
arguments as given. -/
def claimMergeRule (a b : PyStr) : PyStr :=
  if a ≠ [] ∧ b ≠ [] then a ++ commaSep ++ b
  else if a ≠ [] then a
  else b

/-- Modelled from the spec: C4's reading of the dedup — remove from the local
token list EVERY token that appears in the global token list, then join. -/
def claimDedupJoin (tg tl : PyStr) : PyStr :=
  let gs := tokensOf tg
  let ls := tokensOf tl
  joinSep commaSep (gs ++ ls.filter fun tok => decide (tok ∉ gs))

/-- Example template used by witnesses for the basic combiner. -/
def exTplA : JItem :=
  { name := some (("Style A").data)
    prompt := some (("a {prompt} b").data)
    negative_prompt := some (("n1").data) }

/-- Example template for the advanced combiner (the spec's own example). -/
def exTplGL : JItem :=
  { name := some (("GL").data)
    prompt := some (("G {prompt} . L {prompt}").data)
    negative_prompt := some [] }

/-- Edge template for C3: the local template part is exactly the marker. -/
def exTplEdge : JItem :=
  { name := some (("edge").data)
    prompt := some (("G . {prompt}").data)
    negative_prompt := some [] }

/-- Edge template for C4: duplicated local tokens overlapping a global one. -/
def exTplRed : JItem :=
  { name := some (("red").data)
    prompt := some (("red . red, red").data)
    negative_prompt := some [] }

/-- Witness template for C4: global part has the marker, local part not. -/
def exTplW : JItem :=
  { name := some (("W").data)
    prompt := some (("G {prompt} . L").data)
    negative_prompt := some [] }

/-- A parsed template file whose single record has an empty name (C2). -/
def exFileEmptyName : Option (List JItem) :=
  some [{ name := some [], prompt := some (("p").data), negative_prompt := some [] }]

/-- First of two files that both define a template named `A` (C2). -/
def exFileA1 : Option (List JItem) :=
  some [{ name := some (("A").data)
          prompt := some (("p1 {prompt}").data)
          negative_prompt := some [] }]

/-- Second of two files that both define a template named `A` (C2). -/
def exFileA2 : Option (List JItem) :=
  some [{ name := some (("A").data)
          prompt := some (("p2 {prompt}").data)
          negative_prompt := some [] }]

/-- A parsed file whose single record omits `negative_prompt` (C9). -/
def exFileNoNeg : Option (List JItem) :=
  some [{ name := some (("A").data), prompt := some (("p").data), negative_prompt := none }]

/-- A pattern that does not occur in `s` is not at the start of `s` either. -/
theorem leadsWith_eq_false_of_hasSubstr_eq_false {pat s : PyStr}
    (h : hasSubstr pat s = false) : leadsWith pat s = false := by
  cases s with
  | nil =>
    cases pat with
    | nil => simp [hasSubstr] at h
    | cons c p => rfl
  | cons c t =>
    simp only [hasSubstr, Bool.or_eq_false_iff] at h
    exact h.1

/-- If the pattern does not occur in `s`, replacement leaves `s` unchanged. -/
theorem replaceSub_of_not_hasSubstr (pat rep : PyStr) :
    ∀ s : PyStr, hasSubstr pat s = false → replaceSub pat rep s = s := by
  intro s
  induction s with
  | nil => intro _; rfl
  | cons c t ih =>
    intro h
    simp only [hasSubstr, Bool.or_eq_false_iff] at h
    unfold replaceSub replaceAux
    rw [if_neg]
    · exact congrArg (c :: ·) (ih h.2)
    · intro hc
      rw [h.1] at hc
      exact Bool.false_ne_true hc.2

/-- C1: for a validated store in which the requested template name is found,
the basic combiner returns the template's prompt with `{prompt}` replaced by
the user positive text (unchanged if the marker is absent), and merges the
template negative with the user negative: both non-empty → comma-join, one
non-empty → that one, both empty → empty. -/
theorem C1_basic_combiner (json_data : JData) (items : List JItem) (template : JItem)
    (template_name positive_prompt negative_prompt : PyStr)
    (hd : json_data = JData.arr items)
    (hv : validate_json_data json_data = true)
    (hf : find_template_by_name items template_name = some template) :
    read_sdxl_templates_replace_and_combine json_data template_name positive_prompt
        negative_prompt
      = (replaceSub marker positive_prompt (template.prompt.getD []),
         if template.negative_prompt.getD [] ≠ [] ∧ negative_prompt ≠ [] then
           template.negative_prompt.getD [] ++ commaSep ++ negative_prompt
         else if template.negative_prompt.getD [] ≠ [] then template.negative_prompt.getD []
         else negative_prompt)
    ∧ (hasSubstr marker (template.prompt.getD []) = false →
        (read_sdxl_templates_replace_and_combine json_data template_name positive_prompt
            negative_prompt).1 = template.prompt.getD []) := by
  subst hd
  have hmain :
      read_sdxl_templates_replace_and_combine (JData.arr items) template_name positive_prompt
          negative_prompt
        = replace_prompts_in_template template positive_prompt negative_prompt := by
    simp [read_sdxl_templates_replace_and_combine, hv, hf]
  refine ⟨?_, ?_⟩
  · rw [hmain]; rfl
  · intro habs
    rw [hmain]
    exact replaceSub_of_not_hasSubstr marker positive_prompt _ habs

/-- Witness for C1 at the spec's own example: template prompt `a {prompt} b`
with negative `n1`, user input `X` / `n2`. -/
theorem C1_basic_combiner_witness :
    read_sdxl_templates_replace_and_combine (JData.arr [exTplA]) (("Style A").data)
        (("X").data) (("n2").data)
      = (replaceSub marker (("X").data) (exTplA.prompt.getD []),
         if exTplA.negative_prompt.getD [] ≠ [] ∧ (("n2").data : PyStr) ≠ [] then
           exTplA.negative_prompt.getD [] ++ commaSep ++ (("n2").data)
         else if exTplA.negative_prompt.getD [] ≠ [] then exTplA.negative_prompt.getD []
         else (("n2").data) ) :=
  (C1_basic_combiner (JData.arr [exTplA]) [exTplA] exTplA (("Style A").data) (("X").data)
    (("n2").data) rfl (by decide) (by decide)).1

/-- C7: if the store fails structural validation, or is a valid list in which
the requested name does not occur, the basic combiner returns the caller's
original pair unchanged; validation means exactly "a list whose records all
contain `name` and `prompt`". -/
theorem C7_basic_fallback (json_data : JData)
    (template_name positive_prompt negative_prompt : PyStr) :
    (validate_json_data json_data = false →
      read_sdxl_templates_replace_and_combine json_data template_name positive_prompt
          negative_prompt
        = (positive_prompt, negative_prompt))
    ∧ (∀ items, json_data = JData.arr items →
        find_template_by_name items template_name = none →
        read_sdxl_templates_replace_and_combine json_data template_name positive_prompt
            negative_prompt
          = (positive_prompt, negative_prompt))
    ∧ (∀ items, validate_json_data (JData.arr items) = true ↔
        ∀ t ∈ items, t.name.isSome = true ∧ t.prompt.isSome = true)
    ∧ validate_json_data JData.notList = false := by
  refine ⟨?_, ?_, ?_, rfl⟩
  · intro hv
    simp [read_sdxl_templates_replace_and_combine, hv]
  · intro items hd hf
    subst hd
    unfold read_sdxl_templates_replace_and_combine
    cases hval : validate_json_data (JData.arr items) <;> simp [hval, hf]
  · intro items
    simp [validate_json_data, List.all_eq_true, Bool.and_eq_true]

/-- Witness for C7: a non-list store passes the prompts through unchanged,
and so does a valid store without the requested name. -/
theorem C7_basic_fallback_witness :
    read_sdxl_templates_replace_and_combine JData.notList (("S").data) (("p").data)
        (("n").data)
      = ((("p").data), (("n").data))
    ∧ read_sdxl_templates_replace_and_combine (JData.arr [exTplA]) (("missing").data)
        (("p").data) (("n").data)
      = ((("p").data), (("n").data)) :=
  ⟨(C7_basic_fallback JData.notList (("S").data) (("p").data) (("n").data)).1 (by decide),
   (C7_basic_fallback (JData.arr [exTplA]) (("missing").data) (("p").data)
      (("n").data)).2.1 [exTplA] rfl (by decide)⟩

/-- `leadsWith` is exactly "is a leading segment". -/
theorem leadsWith_iff (p : PyStr) : ∀ s : PyStr, leadsWith p s = true ↔ ∃ r, s = p ++ r := by
  induction p with
  | nil =>
    intro s
    simp [leadsWith]
  | cons c p ih =>
    intro s
    cases s with
    | nil =>
      simp [leadsWith]
    | cons d s' =>
      rw [leadsWith]
      simp only [Bool.and_eq_true, beq_iff_eq, ih s']
      constructor
      · rintro ⟨rfl, r, rfl⟩
        exact ⟨r, rfl⟩
      · rintro ⟨r, hr⟩
        injection hr with h1 h2
        exact ⟨h1.symm, r, h2⟩

/-- `hasSubstr` is exactly substring occurrence. -/
theorem hasSubstr_iff (pat : PyStr) :
    ∀ s : PyStr, hasSubstr pat s = true ↔ ∃ a b : PyStr, s = a ++ pat ++ b := by
  intro s
  induction s with
  | nil =>
    simp only [hasSubstr, List.isEmpty_iff]
    constructor
    · rintro rfl
      exact ⟨[], [], rfl⟩
    · rintro ⟨a, b, h⟩
      rcases List.append_eq_nil.mp h.symm with ⟨h1, h2⟩
      exact (List.append_eq_nil.mp h1).2
  | cons c t ih =>
    rw [hasSubstr]
    simp only [Bool.or_eq_true, ih, leadsWith_iff]
    constructor
    · rintro (⟨r, hr⟩ | ⟨a, b, hab⟩)
      · exact ⟨[], r, by simpa using hr⟩
      · exact ⟨c :: a, b, by simp [hab]⟩
    · rintro ⟨a, b, hab⟩
      cases a with
      | nil =>
        refine Or.inl ⟨b, ?_⟩
        simpa using hab
      | cons x a' =>
        refine Or.inr ⟨a', b, ?_⟩
        injection hab

/-- When the separator occurs, `splitFirst` yields a valid decomposition. -/
theorem splitFirst_decomp (sep : PyStr) (hsep : sep ≠ []) :
    ∀ s : PyStr, hasSubstr sep s = true →
      s = (splitFirst sep s).1 ++ sep ++ (splitFirst sep s).2 := by
  intro s
  induction s with
  | nil =>
    intro h
    rw [hasSubstr, List.isEmpty_iff] at h
    exact absurd h hsep
  | cons c t ih =>
    intro h
    cases hl : leadsWith sep (c :: t) with
    | true =>
      rcases (leadsWith_iff sep (c :: t)).mp hl with ⟨r, hr⟩
      rw [splitFirst, if_pos ⟨hsep, hl⟩]
      show c :: t = [] ++ sep ++ ((c :: t).drop sep.length)
      rw [hr, List.drop_left]
      simp
    | false =>
      have h2 : hasSubstr sep t = true := by
        rw [hasSubstr, hl, Bool.false_or] at h
        exact h
      rw [splitFirst, if_neg (fun hc => by rw [hl] at hc; exact Bool.false_ne_true hc.2)]
      have := ih h2
      simpa using congrArg (c :: ·) this

/-- `splitFirst` splits at the FIRST occurrence: its global part is at most as
long as the part preceding any occurrence. -/
theorem splitFirst_min (sep : PyStr) (hsep : sep ≠ []) :
    ∀ s a b : PyStr, s = a ++ sep ++ b → (splitFirst sep s).1.length ≤ a.length := by
  intro s
  induction s with
  | nil =>
    intro a b h
    rcases List.append_eq_nil.mp h.symm with ⟨h1, _⟩
    rcases List.append_eq_nil.mp h1 with ⟨_, h3⟩
    exact absurd h3 hsep
  | cons c t ih =>
    intro a b h
    cases hl : leadsWith sep (c :: t) with
    | true =>
      rw [splitFirst, if_pos ⟨hsep, hl⟩]
      exact Nat.zero_le _
    | false =>
      rw [splitFirst, if_neg (fun hc => by rw [hl] at hc; exact Bool.false_ne_true hc.2)]
      cases a with
      | nil =>
        exfalso
        have hlt : leadsWith sep (c :: t) = true :=
          (leadsWith_iff sep (c :: t)).mpr ⟨b, by simpa using h⟩
        rw [hl] at hlt
        exact Bool.false_ne_true hlt
      | cons x a' =>
        injection h with h1 h2
        simpa using Nat.succ_le_succ (ih a' b (by simpa using h2))

/-- C6: `split_template_advanced` splits on the first occurrence of `" . "`
and strips both parts; with no occurrence the pair is (full text, empty). -/
theorem C6_split_template (t : PyStr) :
    (hasSubstr dotSep t = true →
      ∃ a b : PyStr, t = a ++ dotSep ++ b
        ∧ (∀ a' b' : PyStr, t = a' ++ dotSep ++ b' → a.length ≤ a'.length)
        ∧ split_template_advanced t = (stripStr a, stripStr b))
    ∧ (hasSubstr dotSep t = false → split_template_advanced t = (t, []))
    ∧ (hasSubstr dotSep t = true ↔ ∃ a b : PyStr, t = a ++ dotSep ++ b) := by
  have hsep : dotSep ≠ [] := by decide
  refine ⟨?_, ?_, hasSubstr_iff dotSep t⟩
  · intro h
    refine ⟨(splitFirst dotSep t).1, (splitFirst dotSep t).2,
      splitFirst_decomp dotSep hsep t h, ?_, ?_⟩
    · intro a' b' h'
      exact splitFirst_min dotSep hsep t a' b' h'
    · simp [split_template_advanced, h]
  · intro h
    simp [split_template_advanced, h]

/-- Witness for C6 on the concrete template `"G x . L y"`. -/
theorem C6_split_template_witness :
    ∃ a b : PyStr, (("G x . L y").data : PyStr) = a ++ dotSep ++ b
      ∧ (∀ a' b' : PyStr, (("G x . L y").data : PyStr) = a' ++ dotSep ++ b' →
          a.length ≤ a'.length)
      ∧ split_template_advanced (("G x . L y").data) = (stripStr a, stripStr b) :=
  (C6_split_template (("G x . L y").data)).1 (by decide)

/-- With a validated store and a found template, the advanced pipeline is the
advanced substitution applied to that template. -/
theorem read_advanced_found (json_data : JData) (items : List JItem) (template : JItem)
    (template_name positive_prompt_g positive_prompt_l negative_prompt
      negative_prompt_to : PyStr) (copy_to_l : Bool)
    (hd : json_data = JData.arr items)
    (hv : validate_json_data json_data = true)
    (hf : find_template_by_name items template_name = some template) :
    read_sdxl_templates_replace_and_combine_advanced json_data template_name
        positive_prompt_g positive_prompt_l negative_prompt negative_prompt_to copy_to_l
      = replace_prompts_in_template_advanced template positive_prompt_g positive_prompt_l
          negative_prompt negative_prompt_to copy_to_l := by
  subst hd
  simp [read_sdxl_templates_replace_and_combine_advanced, hv, hf]

/-- C3 (amended): with `copy_to_l = false`, the three positive outputs of the
advanced combiner; the comma-join branch of the local text is selected by the
non-emptiness of the template's local part (BEFORE substitution) together
with the positive-local text, not by the substituted local text. -/
theorem C3_advanced_positive (json_data : JData) (items : List JItem) (template : JItem)
    (template_name positive_prompt_g positive_prompt_l negative_prompt
      negative_prompt_to : PyStr)
    (hd : json_data = JData.arr items)
    (hv : validate_json_data json_data = true)
    (hf : find_template_by_name items template_name = some template) :
    (read_sdxl_templates_replace_and_combine_advanced json_data template_name
        positive_prompt_g positive_prompt_l negative_prompt negative_prompt_to false).1
      = replaceSub marker positive_prompt_g
          (split_template_advanced (template.prompt.getD [])).1
    ∧ (read_sdxl_templates_replace_and_combine_advanced json_data template_name
        positive_prompt_g positive_prompt_l negative_prompt negative_prompt_to false).2.1
      = (if (split_template_advanced (template.prompt.getD [])).2 ≠ []
            ∧ positive_prompt_l ≠ [] then
          replaceSub marker positive_prompt_g
              (split_template_advanced (template.prompt.getD [])).2
            ++ commaSep ++ positive_prompt_l
        else if replaceSub marker positive_prompt_g
            (split_template_advanced (template.prompt.getD [])).2 ≠ [] then
          replaceSub marker positive_prompt_g
            (split_template_advanced (template.prompt.getD [])).2
        else positive_prompt_l)
    ∧ (read_sdxl_templates_replace_and_combine_advanced json_data template_name
        positive_prompt_g positive_prompt_l negative_prompt negative_prompt_to false).2.2.1
      = (if (read_sdxl_templates_replace_and_combine_advanced json_data template_name
              positive_prompt_g positive_prompt_l negative_prompt negative_prompt_to
              false).2.1 ≠ [] then
          (read_sdxl_templates_replace_and_combine_advanced json_data template_name
              positive_prompt_g positive_prompt_l negative_prompt negative_prompt_to
              false).1
            ++ dotSep
            ++ (read_sdxl_templates_replace_and_combine_advanced json_data template_name
                  positive_prompt_g positive_prompt_l negative_prompt negative_prompt_to
                  false).2.1
        else (read_sdxl_templates_replace_and_combine_advanced json_data template_name
                positive_prompt_g positive_prompt_l negative_prompt negative_prompt_to
                false).1) := by
  rw [read_advanced_found json_data items template template_name positive_prompt_g
    positive_prompt_l negative_prompt negative_prompt_to false hd hv hf]
  refine ⟨rfl, ?_, ?_⟩
  · simp only [replace_prompts_in_template_advanced]
    simp
  · simp only [replace_prompts_in_template_advanced]

/-- Witness for C3 at the spec's own advanced example. -/
theorem C3_advanced_positive_witness :
    (read_sdxl_templates_replace_and_combine_advanced (JData.arr [exTplGL]) (("GL").data)
        (("cat").data) (("sitting").data) [] strBoth false).1
      = replaceSub marker (("cat").data)
          (split_template_advanced (exTplGL.prompt.getD [])).1 :=
  (C3_advanced_positive (JData.arr [exTplGL]) [exTplGL] exTplGL (("GL").data)
    (("cat").data) (("sitting").data) [] strBoth rfl (by decide) (by decide)).1

/-- Counterexample for C3 as stated: with template local part `{prompt}` and
empty positive-global text the substituted local text is empty, yet the code
still comma-joins, producing `", sitting"`, while the claim's rule applied to
the substituted local text would give `"sitting"`. -/
theorem C3_advanced_cex :
    (read_sdxl_templates_replace_and_combine_advanced (JData.arr [exTplEdge])
        (("edge").data) [] (("sitting").data) [] strBoth false).2.1
      = ((", sitting").data)
    ∧ claimMergeRule
        (replaceSub marker [] ((split_template_advanced (exTplEdge.prompt.getD [])).2))
        (("sitting").data)
      = (("sitting").data)
    ∧ ((", sitting").data : PyStr) ≠ (("sitting").data) :=
  ⟨by decide, by decide, by decide⟩

/-- C4 (amended): with `copy_to_l` set, non-empty positive-global text and no
marker in the template's local part, the local output is the global tokens
followed by the local tokens that survive the dedup loop; the loop removes,
for each global token in order, at most the FIRST matching local occurrence
(duplicate local tokens beyond the global multiplicity survive). -/
theorem C4_copy_dedup (json_data : JData) (items : List JItem) (template : JItem)
    (template_name positive_prompt_g positive_prompt_l negative_prompt
      negative_prompt_to : PyStr)
    (hd : json_data = JData.arr items)
    (hv : validate_json_data json_data = true)
    (hf : find_template_by_name items template_name = some template)
    (hg : positive_prompt_g ≠ [])
    (hnm : hasSubstr marker (split_template_advanced (template.prompt.getD [])).2
      = false) :
    (read_sdxl_templates_replace_and_combine_advanced json_data template_name
        positive_prompt_g positive_prompt_l negative_prompt negative_prompt_to true).1
      = replaceSub marker positive_prompt_g
          (split_template_advanced (template.prompt.getD [])).1
    ∧ (read_sdxl_templates_replace_and_combine_advanced json_data template_name
        positive_prompt_g positive_prompt_l negative_prompt negative_prompt_to true).2.1
      = joinSep commaSep
          (tokensOf (replaceSub marker positive_prompt_g
              (split_template_advanced (template.prompt.getD [])).1)
            ++ removeEach
                (tokensOf (replaceSub marker positive_prompt_g
                  (split_template_advanced (template.prompt.getD [])).1))
                (tokensOf
                  (if (split_template_advanced (template.prompt.getD [])).2 ≠ []
                      ∧ positive_prompt_l ≠ [] then
                    replaceSub marker positive_prompt_g
                        (split_template_advanced (template.prompt.getD [])).2
                      ++ commaSep ++ positive_prompt_l
                  else if replaceSub marker positive_prompt_g
                      (split_template_advanced (template.prompt.getD [])).2 ≠ [] then
                    replaceSub marker positive_prompt_g
                      (split_template_advanced (template.prompt.getD [])).2
                  else positive_prompt_l))) := by
  rw [read_advanced_found json_data items template template_name positive_prompt_g
    positive_prompt_l negative_prompt negative_prompt_to true hd hv hf]
  refine ⟨rfl, ?_⟩
  simp only [replace_prompts_in_template_advanced, tokensOf, removeEach]
  rw [if_pos ⟨by trivial, hg, hnm⟩]

/-- Witness for C4: prompt `"G {prompt} . L"`, positive-global `"red, cat"`,
positive-local `"red, hat"`; the overlapping token `red` is removed from the
local side and the global tokens are prepended. -/
theorem C4_copy_dedup_witness :
    (read_sdxl_templates_replace_and_combine_advanced (JData.arr [exTplW]) (("W").data)
        (("red, cat").data) (("red, hat").data) [] strBoth true).2.1
      = joinSep commaSep
          (tokensOf (replaceSub marker (("red, cat").data)
              (split_template_advanced (exTplW.prompt.getD [])).1)
            ++ removeEach
                (tokensOf (replaceSub marker (("red, cat").data)
                  (split_template_advanced (exTplW.prompt.getD [])).1))
                (tokensOf
                  (if (split_template_advanced (exTplW.prompt.getD [])).2 ≠ []
                      ∧ (("red, hat").data : PyStr) ≠ [] then
                    replaceSub marker (("red, cat").data)
                        (split_template_advanced (exTplW.prompt.getD [])).2
                      ++ commaSep ++ (("red, hat").data)
                  else if replaceSub marker (("red, cat").data)
                      (split_template_advanced (exTplW.prompt.getD [])).2 ≠ [] then
                    replaceSub marker (("red, cat").data)
                      (split_template_advanced (exTplW.prompt.getD [])).2
                  else (("red, hat").data)))) :=
  (C4_copy_dedup (JData.arr [exTplW]) [exTplW] exTplW (("W").data) (("red, cat").data)
    (("red, hat").data) [] strBoth rfl (by decide) (by decide) (by decide) (by decide)).2

/-- Counterexample for C4 as stated: template `"red . red, red"`, global text
`"zzz"`.  The global token list is `[red]`, the local one `[red, red]`; the
code removes only ONE `red` and outputs `"red, red"`, while removing every
local token that appears in the global list would output `"red"`. -/
theorem C4_copy_dedup_cex :
    (read_sdxl_templates_replace_and_combine_advanced (JData.arr [exTplRed])
        (("red").data) (("zzz").data) [] [] strBoth true).2.1
      = (("red, red").data)
    ∧ claimDedupJoin (("red").data) (("red, red").data) = (("red").data)
    ∧ ((("red, red").data) : PyStr) ≠ (("red").data) :=
  ⟨by decide, by decide, by decide⟩

/-- C5: with a found template, the combined negative text is routed by the
selector: `Both` fills both channels, `G only` fills only the global channel
(local is empty), `L only` fills only the local channel (global is empty). -/
theorem C5_negative_routing (json_data : JData) (items : List JItem) (template : JItem)
    (template_name positive_prompt_g positive_prompt_l negative_prompt
      negative_prompt_to : PyStr) (copy_to_l : Bool)
    {g l p gn ln nn : PyStr}
    (hd : json_data = JData.arr items)
    (hv : validate_json_data json_data = true)
    (hf : find_template_by_name items template_name = some template)
    (hout : read_sdxl_templates_replace_and_combine_advanced json_data template_name
        positive_prompt_g positive_prompt_l negative_prompt negative_prompt_to copy_to_l
      = (g, l, p, gn, ln, nn)) :
    (negative_prompt_to = strBoth → gn = nn ∧ ln = nn)
    ∧ (negative_prompt_to = strGOnly → gn = nn ∧ ln = [])
    ∧ (negative_prompt_to = strLOnly → gn = [] ∧ ln = nn) := by
  rw [read_advanced_found json_data items template template_name positive_prompt_g
    positive_prompt_l negative_prompt negative_prompt_to copy_to_l hd hv hf] at hout
  simp only [replace_prompts_in_template_advanced, Prod.mk.injEq] at hout
  obtain ⟨hg, hl, hp, hgn, hln, hnn⟩ := hout
  refine ⟨?_, ?_, ?_⟩ <;> intro hsel <;> subst hsel
  · rw [if_pos (Or.inl rfl)] at hgn
    rw [if_pos (Or.inl rfl)] at hln
    exact ⟨hgn.symm.trans hnn, hln.symm.trans hnn⟩
  · rw [if_pos (Or.inr rfl)] at hgn
    rw [if_neg (by decide)] at hln
    exact ⟨hgn.symm.trans hnn, hln.symm⟩
  · rw [if_neg (by decide)] at hgn
    rw [if_pos (Or.inr rfl)] at hln
    exact ⟨hgn.symm, hln.symm.trans hnn⟩

/-- Witness for C5 with selector `G only`: the local negative channel is
empty and the global one carries the combined negative text. -/
theorem C5_negative_routing_witness :
    (read_sdxl_templates_replace_and_combine_advanced (JData.arr [exTplA])
        (("Style A").data) (("X").data) (("Y").data) (("n2").data) strGOnly false).2.2.2.1
      = (read_sdxl_templates_replace_and_combine_advanced (JData.arr [exTplA])
        (("Style A").data) (("X").data) (("Y").data) (("n2").data) strGOnly
        false).2.2.2.2.2
    ∧ (read_sdxl_templates_replace_and_combine_advanced (JData.arr [exTplA])
        (("Style A").data) (("X").data) (("Y").data) (("n2").data) strGOnly
        false).2.2.2.2.1 = [] :=
  (C5_negative_routing (JData.arr [exTplA]) [exTplA] exTplA (("Style A").data)
    (("X").data) (("Y").data) (("n2").data) strGOnly false rfl (by decide) (by decide)
    rfl).2.1 rfl

/-- C10: with a found template and a selector other than `Both`, `G only` and
`L only`, both negative channels are empty while the combined negative output
still carries the merge of the template negative and the user negative. -/
theorem C10_unknown_routing (json_data : JData) (items : List JItem) (template : JItem)
    (template_name positive_prompt_g positive_prompt_l negative_prompt
      negative_prompt_to : PyStr) (copy_to_l : Bool)
    {g l p gn ln nn : PyStr}
    (hd : json_data = JData.arr items)
    (hv : validate_json_data json_data = true)
    (hf : find_template_by_name items template_name = some template)
    (h1 : negative_prompt_to ≠ strBoth)
    (h2 : negative_prompt_to ≠ strGOnly)
    (h3 : negative_prompt_to ≠ strLOnly)
    (hout : read_sdxl_templates_replace_and_combine_advanced json_data template_name
        positive_prompt_g positive_prompt_l negative_prompt negative_prompt_to copy_to_l
      = (g, l, p, gn, ln, nn)) :
    gn = [] ∧ ln = []
    ∧ nn = (if template.negative_prompt.getD [] ≠ [] ∧ negative_prompt ≠ [] then
             template.negative_prompt.getD [] ++ commaSep ++ negative_prompt
           else if template.negative_prompt.getD [] ≠ [] then
             template.negative_prompt.getD []
           else negative_prompt) := by
  rw [read_advanced_found json_data items template template_name positive_prompt_g
    positive_prompt_l negative_prompt negative_prompt_to copy_to_l hd hv hf] at hout
  simp only [replace_prompts_in_template_advanced, Prod.mk.injEq] at hout
  obtain ⟨hg, hl, hp, hgn, hln, hnn⟩ := hout
  rw [if_neg (fun hc => hc.elim h1 h2)] at hgn
  rw [if_neg (fun hc => hc.elim h1 h3)] at hln
  exact ⟨hgn.symm, hln.symm, hnn.symm⟩

/-- Witness for C10 with the unknown selector `"X"`. -/
theorem C10_unknown_routing_witness :
    (read_sdxl_templates_replace_and_combine_advanced (JData.arr [exTplA])
        (("Style A").data) (("X").data) (("Y").data) (("n2").data) (("X").data)
        false).2.2.2.1 = []
    ∧ (read_sdxl_templates_replace_and_combine_advanced (JData.arr [exTplA])
        (("Style A").data) (("X").data) (("Y").data) (("n2").data) (("X").data)
        false).2.2.2.2.1 = [] :=
  ⟨(C10_unknown_routing (JData.arr [exTplA]) [exTplA] exTplA (("Style A").data)
      (("X").data) (("Y").data) (("n2").data) (("X").data) false rfl (by decide)
      (by decide) (by decide) (by decide) (by decide) rfl).1,
   (C10_unknown_routing (JData.arr [exTplA]) [exTplA] exTplA (("Style A").data)
      (("X").data) (("Y").data) (("n2").data) (("X").data) false rfl (by decide)
      (by decide) (by decide) (by decide) (by decide) rfl).2.1⟩

/-- C8: if the store fails validation or the requested name is not found, the
advanced combiner passes the positive texts through, combines them with
`" . "` unconditionally, and echoes the negative text into all three negative
outputs. -/
theorem C8_advanced_fallback (json_data : JData)
    (template_name positive_prompt_g positive_prompt_l negative_prompt
      negative_prompt_to : PyStr) (copy_to_l : Bool) :
    (validate_json_data json_data = false →
      read_sdxl_templates_replace_and_combine_advanced json_data template_name
          positive_prompt_g positive_prompt_l negative_prompt negative_prompt_to copy_to_l
        = (positive_prompt_g, positive_prompt_l,
           positive_prompt_g ++ dotSep ++ positive_prompt_l,
           negative_prompt, negative_prompt, negative_prompt))
    ∧ (∀ items, json_data = JData.arr items →
        find_template_by_name items template_name = none →
        read_sdxl_templates_replace_and_combine_advanced json_data template_name
            positive_prompt_g positive_prompt_l negative_prompt negative_prompt_to
            copy_to_l
          = (positive_prompt_g, positive_prompt_l,
             positive_prompt_g ++ dotSep ++ positive_prompt_l,
             negative_prompt, negative_prompt, negative_prompt)) := by
  constructor
  · intro hv
    simp [read_sdxl_templates_replace_and_combine_advanced, hv]
  · intro items hd hf
    subst hd
    unfold read_sdxl_templates_replace_and_combine_advanced
    cases hval : validate_json_data (JData.arr items) <;> simp [hval, hf]

/-- Witness for C8: a non-list store and a missing name both yield the
fallback 6-tuple. -/
theorem C8_advanced_fallback_witness :
    read_sdxl_templates_replace_and_combine_advanced JData.notList (("S").data)
        (("g").data) (("l").data) (("n").data) strBoth true
      = ((("g").data), (("l").data), (("g").data) ++ dotSep ++ (("l").data),
         (("n").data), (("n").data), (("n").data))
    ∧ read_sdxl_templates_replace_and_combine_advanced (JData.arr [exTplA])
        (("missing").data) (("g").data) (("l").data) (("n").data) strBoth true
      = ((("g").data), (("l").data), (("g").data) ++ dotSep ++ (("l").data),
         (("n").data), (("n").data), (("n").data)) :=
  ⟨(C8_advanced_fallback JData.notList (("S").data) (("g").data) (("l").data)
      (("n").data) strBoth true).1 (by decide),
   (C8_advanced_fallback (JData.arr [exTplA]) (("missing").data) (("g").data)
      (("l").data) (("n").data) strBoth true).2 [exTplA] rfl (by decide)⟩

/-- C9 (amended): `read_json_file` accepts a parsed array exactly when every
record contains all THREE keys `name`, `prompt` and `negative_prompt`; a
record that omits `negative_prompt` causes the whole file to be rejected.
The empty-string default for `negative_prompt` applies only at combination
time (`template.get`). -/
theorem C9_loader_requires_all_fields (p : Option (List JItem)) :
    ((read_json_file p).isSome = true ↔
      ∃ items, p = some items
        ∧ ∀ it ∈ items, it.name.isSome = true ∧ it.prompt.isSome = true
            ∧ it.negative_prompt.isSome = true)
    ∧ (∀ items, p = some items →
        (∀ it ∈ items, it.name.isSome = true ∧ it.prompt.isSome = true
            ∧ it.negative_prompt.isSome = true) →
        read_json_file p = some items)
    ∧ (∀ t : JItem, ∀ pos neg : PyStr, t.negative_prompt = none →
        (replace_prompts_in_template t pos neg).2 = neg) := by
  refine ⟨?_, ?_, ?_⟩
  · cases p with
    | none => simp [read_json_file]
    | some items =>
      rw [read_json_file]
      cases hall : items.all (fun item =>
          item.name.isSome && item.prompt.isSome && item.negative_prompt.isSome) with
      | true =>
        rw [if_pos rfl]
        simp only [Option.isSome_some, Option.some.injEq, true_iff]
        refine ⟨items, rfl, ?_⟩
        intro it hit
        have h := List.all_eq_true.mp hall it hit
        simp only [Bool.and_eq_true] at h
        exact ⟨h.1.1, h.1.2, h.2⟩
      | false =>
        rw [if_neg (by decide)]
        simp only [Option.isSome_none, Bool.false_eq_true, false_iff]
        rintro ⟨items2, heq, hP⟩
        injection heq with heq2
        subst heq2
        have : items.all (fun item =>
            item.name.isSome && item.prompt.isSome && item.negative_prompt.isSome)
            = true := by
          refine List.all_eq_true.mpr ?_
          intro it hit
          obtain ⟨h1, h2, h3⟩ := hP it hit
          simp [h1, h2, h3]
        rw [hall] at this
        exact Bool.false_ne_true this
  · intro items hd hP
    subst hd
    rw [read_json_file, if_pos]
    refine List.all_eq_true.mpr ?_
    intro it hit
    obtain ⟨h1, h2, h3⟩ := hP it hit
    simp [h1, h2, h3]
  · intro t pos neg hneg
    simp [replace_prompts_in_template, hneg]

/-- Witness for C9: a file whose records carry all three keys is accepted. -/
theorem C9_loader_requires_all_fields_witness :
    read_json_file (some [exTplA]) = some [exTplA] :=
  (C9_loader_requires_all_fields (some [exTplA])).2.1 [exTplA] rfl (by decide)

/-- Counterexample for C9 as stated: a parseable file whose single record has
`name` and `prompt` but omits `negative_prompt` is REJECTED by the loader,
not accepted. -/
theorem C9_loader_cex :
    read_json_file exFileNoNeg = none
    ∧ exFileNoNeg.isSome = true
    ∧ ((exFileNoNeg.getD []).all fun it => it.name.isSome && it.prompt.isSome) = true :=
  ⟨by decide, by decide, by decide⟩

/-- Folding one more digit onto a decimal string. -/
theorem strVal_append_digit (s : PyStr) (c : Char) :
    strVal (s ++ [c]) = strVal s * 10 + (c.toNat - 48) := by
  simp [strVal, List.foldl_append]

/-- Digit characters parse back to their value. -/
theorem digitChar_val : ∀ n < 10, (digitChar n).toNat - 48 = n := by decide

/-- Parsing is a left inverse of rendering (with sufficient fuel). -/
theorem strVal_natToStrAux : ∀ fuel n, n < fuel → strVal (natToStrAux fuel n) = n := by
  intro fuel
  induction fuel with
  | zero => intro n hn; omega
  | succ f ih =>
    intro n hn
    by_cases h10 : n < 10
    · rw [natToStrAux, if_pos h10]
      have := digitChar_val n h10
      simp [strVal, this]
    · have hdiv : n / 10 < f := by
        have h1 : n / 10 < n := Nat.div_lt_self (by omega) (by omega)
        omega
      rw [natToStrAux, if_neg h10, strVal_append_digit, ih (n / 10) hdiv,
        digitChar_val (n % 10) (Nat.mod_lt _ (by omega))]
      omega

/-- Decimal rendering is injective. -/
theorem natToStr_inj : ∀ m n : Nat, natToStr m = natToStr n → m = n := by
  intro m n h
  have hm := strVal_natToStrAux (m + 1) m (by omega)
  have hn := strVal_natToStrAux (n + 1) n (by omega)
  rw [natToStr] at h
  rw [h] at hm
  exact hm.symm.trans hn

/-- Candidate names with different suffixes are different. -/
theorem cand_inj (orig : PyStr) (m n : Nat) (h : cand orig m = cand orig n) : m = n := by
  rw [cand, cand] at h
  have h2 := List.append_cancel_left h
  injection h2 with _ h3
  exact natToStr_inj m n h3

/-- A candidate name is never empty. -/
theorem cand_ne_nil (orig : PyStr) (n : Nat) : cand orig n ≠ [] := by
  simp [cand]

/-- Pigeonhole: among the first `length + 1` suffixes, some candidate is not
in the seen list. -/
theorem exists_fresh_le (prev : List PyStr) (orig : PyStr) :
    ∃ j, j ≤ prev.length ∧ cand orig (1 + j) ∉ prev := by
  by_contra hcon
  push_neg at hcon
  have hmaps : ∀ j ∈ Finset.range (prev.length + 1), cand orig (1 + j) ∈ prev.toFinset := by
    intro j hj
    rw [List.mem_toFinset]
    have := Finset.mem_range.mp hj
    exact hcon j (by omega)
  have hinj : Set.InjOn (fun j => cand orig (1 + j))
      (Finset.range (prev.length + 1)) := by
    intro a _ b _ hab
    have := cand_inj orig (1 + a) (1 + b) hab
    omega
  have hcard := Finset.card_le_card_of_injOn (fun j => cand orig (1 + j)) hmaps hinj
  rw [Finset.card_range] at hcard
  have hle := prev.toFinset_card_le
  omega

/-- The loop returns a candidate that is already fresh unchanged. -/
theorem styleLoop_run (seen : List PyStr) (orig : PyStr) :
    ∀ fuel suffix style, style ∉ seen → styleLoop seen orig fuel suffix style = style := by
  intro fuel
  cases fuel with
  | zero => intro _ _ _; rfl
  | succ f => intro suffix style h; rw [styleLoop, if_neg h]

/-- With enough fuel the loop lands exactly on the first fresh candidate. -/
theorem styleLoop_found (seen : List PyStr) (orig : PyStr) :
    ∀ fuel k suffix style, style ∈ seen → k < fuel →
      cand orig (suffix + k) ∉ seen →
      (∀ j, j < k → cand orig (suffix + j) ∈ seen) →
      styleLoop seen orig fuel suffix style = cand orig (suffix + k) := by
  intro fuel
  induction fuel with
  | zero => intro k _ _ _ hk _ _; omega
  | succ f ih =>
    intro k suffix style hst hk hkfresh hjmem
    rw [styleLoop, if_pos hst]
    cases k with
    | zero =>
      rw [Nat.add_zero] at hkfresh ⊢
      exact styleLoop_run seen orig f (suffix + 1) (cand orig suffix) hkfresh
    | succ m =>
      have hmem0 : cand orig suffix ∈ seen := by
        have := hjmem 0 (Nat.succ_pos m)
        simpa using this
      have hresult := ih m (suffix + 1) (cand orig suffix) hmem0 (by omega)
        (by have he : suffix + 1 + m = suffix + (m + 1) := by omega
            rw [he]; exact hkfresh)
        (by intro j hj
            have he : suffix + 1 + j = suffix + (j + 1) := by omega
            rw [he]; exact hjmem (j + 1) (by omega))
      rw [hresult]
      congr 1
      omega

/-- A bare name that is not yet seen is kept. -/
theorem pickStyle_of_not_mem (seen : List PyStr) (orig : PyStr) (h : orig ∉ seen) :
    pickStyle seen orig = orig :=
  styleLoop_run seen orig (seen.length + 1) 1 orig h

/-- A colliding name gets the first fresh suffix `n ≥ 1`. -/
theorem pickStyle_spec_mem (seen : List PyStr) (orig : PyStr) (h : orig ∈ seen) :
    ∃ k, 1 ≤ k ∧ pickStyle seen orig = cand orig k ∧ cand orig k ∉ seen
      ∧ ∀ j, 1 ≤ j → j < k → cand orig j ∈ seen := by
  classical
  have hex : ∃ j, cand orig (1 + j) ∉ seen := by
    obtain ⟨j, _, hj⟩ := exists_fresh_le seen orig
    exact ⟨j, hj⟩
  have hfresh : cand orig (1 + Nat.find hex) ∉ seen := Nat.find_spec hex
  have hmin : ∀ j, j < Nat.find hex → cand orig (1 + j) ∈ seen := by
    intro j hj
    have := Nat.find_min hex hj
    simpa using this
  have hbound : Nat.find hex ≤ seen.length := by
    obtain ⟨j, hj1, hj2⟩ := exists_fresh_le seen orig
    exact le_trans (Nat.find_min' hex hj2) hj1
  have hrun : styleLoop seen orig (seen.length + 1) 1 orig
      = cand orig (1 + Nat.find hex) :=
    styleLoop_found seen orig (seen.length + 1) (Nat.find hex) 1 orig h (by omega)
      hfresh hmin
  refine ⟨1 + Nat.find hex, by omega, hrun, hfresh, ?_⟩
  intro j h1j hjk
  have hlt : j - 1 < Nat.find hex := by omega
  have hj := hmin (j - 1) hlt
  have hje : 1 + (j - 1) = j := by omega
  rwa [hje] at hj

/-- The resolved name is never in the seen list. -/
theorem pickStyle_not_mem (seen : List PyStr) (orig : PyStr) :
    pickStyle seen orig ∉ seen := by
  by_cases h : orig ∈ seen
  · obtain ⟨k, _, heq, hfresh, _⟩ := pickStyle_spec_mem seen orig h
    rw [heq]
    exact hfresh
  · rw [pickStyle_of_not_mem seen orig h]
    exact h

/-- A non-empty original name resolves to a non-empty name. -/
theorem pickStyle_ne_nil (seen : List PyStr) (orig : PyStr) (h : orig ≠ []) :
    pickStyle seen orig ≠ [] := by
  by_cases hm : orig ∈ seen
  · obtain ⟨k, _, heq, _, _⟩ := pickStyle_spec_mem seen orig hm
    rw [heq]
    exact cand_ne_nil orig k
  · rw [pickStyle_of_not_mem seen orig hm]
    exact h

/-- The item-level fold of the loader equals the unrolled assigner. -/
theorem foldl_processItem_eq :
    ∀ (items : List JItem) (c : List JItem) (s : List PyStr),
      items.foldl processItem (c, s)
        = (c ++ assignAll items s,
           s ++ (assignAll items s).filterMap fun it => it.name) := by
  intro items
  induction items with
  | nil => intro c s; simp [assignAll]
  | cons it rest ih =>
    intro c s
    rw [List.foldl_cons]
    have hpi : processItem (c, s) it
        = (c ++ [{ it with name := some (pickStyle s (it.name.getD [])) }],
           s ++ [pickStyle s (it.name.getD [])]) := rfl
    rw [hpi, ih]
    simp [assignAll, List.filterMap_cons, List.append_assoc]

/-- The file-level fold of the loader concatenates over the accepted files. -/
theorem assignAll_append :
    ∀ (xs ys : List JItem) (s : List PyStr),
      assignAll (xs ++ ys) s
        = assignAll xs s
          ++ assignAll ys (s ++ (assignAll xs s).filterMap fun it => it.name) := by
  intro xs
  induction xs with
  | nil => intro ys s; simp [assignAll]
  | cons x xs ih =>
    intro ys s
    simp only [List.cons_append, assignAll, List.append_eq]
    rw [ih]
    simp [List.filterMap_cons, List.append_assoc]

/-- Fold over the files from an arbitrary state. -/
theorem loader_fold_eq :
    ∀ (files : List (Option (List JItem))) (c : List JItem) (s : List PyStr),
      files.foldl
        (fun state json_file =>
          match read_json_file json_file with
          | some json_data => json_data.foldl processItem state
          | none => state) (c, s)
        = (c ++ assignAll (acceptedRecords files) s,
           s ++ (assignAll (acceptedRecords files) s).filterMap fun it => it.name) := by
  intro files
  induction files with
  | nil => intro c s; simp [acceptedRecords, assignAll]
  | cons f rest ih =>
    intro c s
    rw [List.foldl_cons]
    cases hf : read_json_file f with
    | none =>
      simp only [hf]
      rw [ih]
      simp [acceptedRecords, List.filterMap_cons, hf]
    | some its =>
      simp only [hf]
      rw [foldl_processItem_eq its c s, ih]
      have hacc : acceptedRecords (f :: rest) = its ++ acceptedRecords rest := by
        simp [acceptedRecords, List.filterMap_cons, hf]
      rw [hacc, assignAll_append]
      simp [List.append_assoc]

/-- The loader is the unrolled assigner started from the empty seen set. -/
theorem load_eq_assignAll (files : List (Option (List JItem))) :
    load_styles_from_directory files
      = (assignAll (acceptedRecords files) [],
         (assignAll (acceptedRecords files) []).filterMap fun it => it.name) := by
  unfold load_styles_from_directory
  rw [loader_fold_eq files [] []]
  simp

/-- Assigned names are fresh with respect to the seen set and pairwise
distinct. -/
theorem assignAll_nodup :
    ∀ (items : List JItem) (s : List PyStr),
      ((assignAll items s).filterMap fun it => it.name).Nodup
      ∧ ∀ n ∈ (assignAll items s).filterMap fun it => it.name, n ∉ s := by
  intro items
  induction items with
  | nil => intro s; simp [assignAll]
  | cons it rest ih =>
    intro s
    simp only [assignAll, List.filterMap_cons]
    constructor
    · refine List.nodup_cons.mpr ⟨?_, (ih (s ++ [pickStyle s (it.name.getD [])])).1⟩
      intro hmem
      have hni := (ih (s ++ [pickStyle s (it.name.getD [])])).2 _ hmem
      exact hni (List.mem_append_right _ (List.mem_singleton_self _))
    · intro n hn
      rcases List.mem_cons.mp hn with rfl | hn2
      · exact pickStyle_not_mem s _
      · intro hns
        exact (ih (s ++ [pickStyle s (it.name.getD [])])).2 n hn2
          (List.mem_append_left _ hns)

/-- Renaming preserves the prompts, in order. -/
theorem assignAll_map_prompt :
    ∀ (items : List JItem) (s : List PyStr),
      ((assignAll items s).map fun it => it.prompt) = items.map fun it => it.prompt := by
  intro items
  induction items with
  | nil => intro s; simp [assignAll]
  | cons it rest ih =>
    intro s
    simp [assignAll, ih]

/-- Renaming preserves the negative prompts, in order. -/
theorem assignAll_map_negative :
    ∀ (items : List JItem) (s : List PyStr),
      ((assignAll items s).map fun it => it.negative_prompt)
        = items.map fun it => it.negative_prompt := by
  intro items
  induction items with
  | nil => intro s; simp [assignAll]
  | cons it rest ih =>
    intro s
    simp [assignAll, ih]

/-- Non-empty original names yield non-empty assigned names. -/
theorem assignAll_ne_nil :
    ∀ (items : List JItem) (s : List PyStr),
      (∀ it ∈ items, it.name.getD [] ≠ []) →
      ∀ n ∈ (assignAll items s).filterMap fun it => it.name, n ≠ [] := by
  intro items
  induction items with
  | nil => intro s _; simp [assignAll]
  | cons it rest ih =>
    intro s hall n hn
    simp only [assignAll, List.filterMap_cons] at hn
    rcases List.mem_cons.mp hn with rfl | hn2
    · exact pickStyle_ne_nil s _ (hall it (List.mem_cons_self it rest))
    · exact ih (s ++ [pickStyle s (it.name.getD [])])
        (fun x hx => hall x (List.mem_cons_of_mem it hx)) n hn2

/-- The name assigned at position `i` obeys the collision rule with respect
to the names assigned before it (and the initial seen set `s`): a fresh bare
name is kept, a colliding one gets the first fresh suffix `_k`, `k ≥ 1`. -/
theorem assignAll_rule :
    ∀ (items : List JItem) (s : List PyStr) (i : Nat), i < items.length →
      ((items.map fun it => it.name.getD []).getD i []
          ∉ s ++ ((assignAll items s).filterMap fun it => it.name).take i →
        ((assignAll items s).filterMap fun it => it.name).getD i []
          = (items.map fun it => it.name.getD []).getD i [])
      ∧ ((items.map fun it => it.name.getD []).getD i []
          ∈ s ++ ((assignAll items s).filterMap fun it => it.name).take i →
        ∃ k, 1 ≤ k
          ∧ ((assignAll items s).filterMap fun it => it.name).getD i []
              = cand ((items.map fun it => it.name.getD []).getD i []) k
          ∧ cand ((items.map fun it => it.name.getD []).getD i []) k
              ∉ s ++ ((assignAll items s).filterMap fun it => it.name).take i
          ∧ ∀ j, 1 ≤ j → j < k →
              cand ((items.map fun it => it.name.getD []).getD i []) j
                ∈ s ++ ((assignAll items s).filterMap fun it => it.name).take i) := by
  intro items
  induction items with
  | nil => intro s i hi; simp at hi
  | cons it rest ih =>
    intro s i hi
    cases i with
    | zero =>
      simp only [assignAll, List.filterMap_cons, List.map_cons, List.getD_cons_zero,
        List.take_zero, List.append_nil]
      exact ⟨pickStyle_of_not_mem s (it.name.getD []),
        pickStyle_spec_mem s (it.name.getD [])⟩
    | succ i2 =>
      have hrec := ih (s ++ [pickStyle s (it.name.getD [])]) i2 (by simpa using hi)
      simp only [assignAll, List.filterMap_cons, List.map_cons, List.getD_cons_succ,
        List.take_succ_cons] at hrec ⊢
      simp only [List.append_assoc, List.singleton_append] at hrec
      exact hrec

/-- C2 (amended): the loader concatenates the accepted files' records in
listing order; names are resolved against the already-assigned names by the
first-fresh-suffix rule (bare name kept when fresh, else `_k` with the least
`k ≥ 1`); the resulting name list is duplicate-free, and non-empty provided
the original names are non-empty (an empty original name stays empty); two
files both naming a template `A` yield `[A, A_1]`. -/
theorem C2_loader_amended (files : List (Option (List JItem))) :
    (load_styles_from_directory files).2
        = ((load_styles_from_directory files).1.filterMap fun it => it.name)
    ∧ (load_styles_from_directory files).2.Nodup
    ∧ ((load_styles_from_directory files).1.map fun it => it.prompt)
        = ((acceptedRecords files).map fun it => it.prompt)
    ∧ ((load_styles_from_directory files).1.map fun it => it.negative_prompt)
        = ((acceptedRecords files).map fun it => it.negative_prompt)
    ∧ ((∀ it ∈ acceptedRecords files, it.name.getD [] ≠ []) →
        ∀ n ∈ (load_styles_from_directory files).2, n ≠ [])
    ∧ (∀ i, i < (acceptedRecords files).length →
        (((acceptedRecords files).map fun it => it.name.getD []).getD i []
            ∉ (load_styles_from_directory files).2.take i →
          (load_styles_from_directory files).2.getD i []
            = ((acceptedRecords files).map fun it => it.name.getD []).getD i [])
        ∧ (((acceptedRecords files).map fun it => it.name.getD []).getD i []
            ∈ (load_styles_from_directory files).2.take i →
          ∃ k, 1 ≤ k
            ∧ (load_styles_from_directory files).2.getD i []
                = cand
                    (((acceptedRecords files).map fun it => it.name.getD []).getD i []) k
            ∧ cand (((acceptedRecords files).map fun it => it.name.getD []).getD i []) k
                ∉ (load_styles_from_directory files).2.take i
            ∧ ∀ j, 1 ≤ j → j < k →
                cand
                    (((acceptedRecords files).map fun it => it.name.getD []).getD i []) j
                  ∈ (load_styles_from_directory files).2.take i))
    ∧ (load_styles_from_directory [exFileA1, exFileA2]).2
        = [(("A").data), (("A_1").data)] := by
  rw [load_eq_assignAll files]
  refine ⟨rfl, (assignAll_nodup (acceptedRecords files) []).1,
    assignAll_map_prompt (acceptedRecords files) [],
    assignAll_map_negative (acceptedRecords files) [],
    assignAll_ne_nil (acceptedRecords files) [], ?_, by decide⟩
  intro i hi
  have h := assignAll_rule (acceptedRecords files) [] i hi
  simpa using h

/-- Witness for C2: the two-file `A`/`A` store has duplicate-free names and
yields exactly `[A, A_1]`. -/
theorem C2_loader_amended_witness :
    (load_styles_from_directory [exFileA1, exFileA2]).2.Nodup
    ∧ (load_styles_from_directory [exFileA1, exFileA2]).2
        = [(("A").data), (("A_1").data)] :=
  ⟨(C2_loader_amended [exFileA1, exFileA2]).2.1,
   (C2_loader_amended [exFileA1, exFileA2]).2.2.2.2.2.2⟩

/-- Counterexample for C2 as stated: a record whose original name is the
empty string keeps the empty string as its store name, so not every stored
name is non-empty. -/
theorem C2_loader_cex :
    (load_styles_from_directory [exFileEmptyName]).2 = [[]]
    ∧ ((load_styles_from_directory [exFileEmptyName]).2.all fun s => !s.isEmpty)
        = false :=
  ⟨by decide, by decide⟩
